import Mathlib

/-!
Shallow embedding of `media/libstagefright/omx/SoftVideoEncoderOMXComponent.cpp`
(openfde lineageos fork of android frameworks/av).

The component's mutable fields (`mWidth`, `mHeight`, `mBitrate`, `mFramerate`,
`mColorFormat`, `mInputDataIsMeta`, the two port definitions and the
construction-time compression policy) become a `CompState` record.  OMX enum
values are embedded as their numeric codes; 32-bit unsigned arithmetic is Nat
arithmetic with an explicit `% 2^32` where the C computation can wrap.
-/

namespace SoftVideoEncoder

/-- `OMX_COLOR_FormatYUV420Planar` (OMX_IVCommon.h). -/
def OMX_COLOR_FormatYUV420Planar : Nat := 19

/-- `OMX_COLOR_FormatYUV420SemiPlanar` (OMX_IVCommon.h). -/
def OMX_COLOR_FormatYUV420SemiPlanar : Nat := 21

/-- `OMX_COLOR_FormatAndroidOpaque` = 0x7F000789 (OMX_IVCommon.h extension). -/
def OMX_COLOR_FormatAndroidOpaque : Nat := 2130708361

/-- `OMX_COLOR_FormatUnused` = 0. -/
def OMX_COLOR_FormatUnused : Nat := 0

/-- `OMX_VIDEO_CodingUnused` = 0. -/
def OMX_VIDEO_CodingUnused : Nat := 0

/-- The `OMX_ERRORTYPE` values this file returns. -/
inductive OMXERRORTYPE where
  | ErrorNone
  | ErrorBadParameter
  | ErrorUnsupportedSetting
  | ErrorBadPortIndex
  | ErrorUndefined
  deriving DecidableEq, Repr

/-- The fields of `OMX_PARAM_PORTDEFINITIONTYPE` (video domain) that
`SoftVideoEncoderOMXComponent` reads or writes. -/
structure PortDef where
  nFrameWidth : Nat
  nFrameHeight : Nat
  nStride : Nat
  nSliceHeight : Nat
  xFramerate : Nat
  nBitrate : Nat
  eCompressionFormat : Nat
  eColorFormat : Nat
  nBufferSize : Nat
  deriving DecidableEq, Repr

/-- `sizeof(VideoNativeMetadata)` on an LP64 build:
`{MetadataBufferType(4) pad(4) ANativeWindowBuffer*(8) int(4) pad(4)}`. -/
def sizeofVideoNativeMetadata : Nat := 24

/-- `sizeof(VideoGrallocMetadata)` on an LP64 build:
`{MetadataBufferType(4) pad(4) buffer_handle_t(8)}`. -/
def sizeofVideoGrallocMetadata : Nat := 16

/-- 2^32, the modulus of `uint32_t` arithmetic. -/
def U32MOD : Nat := 4294967296

/-- `uint32_t rawBufferSize = nStride * nSliceHeight * 3 / 2;`
(`updatePortParams`, line 344): the product wraps at 2^32 before the
division by 2. -/
def rawBufferSize (stride sliceHeight : Nat) : Nat :=
  stride * sliceHeight * 3 % U32MOD / 2

/-- The component state: member variables of `SoftVideoEncoderOMXComponent`
touched by the parameter traffic (the EGL/PowerVR scratch fields are modelled
separately with the extraction path). `mMinCompressionFactor` embeds the C
member `mMinCompressionRatio` (renamed). -/
structure CompState where
  mInputDataIsMeta : Bool
  mWidth : Nat
  mHeight : Nat
  mBitrate : Nat
  mFramerate : Nat
  mColorFormat : Nat
  mMinOutputBufferSize : Nat
  mMinCompressionFactor : Nat
  mCodingType : Nat
  inDef : PortDef
  outDef : PortDef
  deriving DecidableEq, Repr

/-- `SoftVideoEncoderOMXComponent::updatePortParams` (lines 336-358): rewrites
both stored port definitions from the authoritative member variables. -/
def updatePortParams (s : CompState) : CompState :=
  { s with
    inDef := { s.inDef with
      nFrameWidth := s.mWidth,
      nFrameHeight := s.mHeight,
      nStride := s.mWidth,
      nSliceHeight := s.mHeight,
      xFramerate := s.mFramerate,
      eColorFormat := s.mColorFormat,
      nBufferSize :=
        if s.mColorFormat = OMX_COLOR_FormatAndroidOpaque then
          max sizeofVideoNativeMetadata sizeofVideoGrallocMetadata
        else rawBufferSize s.mWidth s.mHeight },
    outDef := { s.outDef with
      nFrameWidth := s.mWidth,
      nFrameHeight := s.mHeight,
      nBitrate := s.mBitrate,
      nBufferSize :=
        max s.mMinOutputBufferSize
          (rawBufferSize s.mWidth s.mHeight / s.mMinCompressionFactor) } }

/-- An incoming `OMX_PARAM_PORTDEFINITIONTYPE` proposal; `valid` stands for
`isValidOMXParam(port)` (size/version check). -/
structure PortDefParam where
  valid : Bool
  nPortIndex : Nat
  nFrameWidth : Nat
  nFrameHeight : Nat
  xFramerate : Nat
  nBitrate : Nat
  eCompressionFormat : Nat
  eColorFormat : Nat
  deriving DecidableEq, Repr

/-- `SoftVideoEncoderOMXComponent::internalSetPortParams` (lines 360-401).
On the input port the geometry and framerate members are overwritten before
the format check; the PowerVR `mShmData` allocation touches no modelled field. -/
def internalSetPortParams (s : CompState) (p : PortDefParam) :
    OMXERRORTYPE × CompState :=
  if p.valid = false then (.ErrorBadParameter, s)
  else if p.nPortIndex = 0 then
    let s1 := { s with
      mWidth := p.nFrameWidth, mHeight := p.nFrameHeight,
      mFramerate := p.xFramerate }
    if p.eCompressionFormat ≠ OMX_VIDEO_CodingUnused ∨
        (p.eColorFormat ≠ OMX_COLOR_FormatYUV420Planar ∧
         p.eColorFormat ≠ OMX_COLOR_FormatYUV420SemiPlanar ∧
         p.eColorFormat ≠ OMX_COLOR_FormatAndroidOpaque) then
      (.ErrorUnsupportedSetting, s1)
    else
      (.ErrorNone, updatePortParams { s1 with mColorFormat := p.eColorFormat })
  else if p.nPortIndex = 1 then
    if p.eCompressionFormat ≠ s.mCodingType ∨
        p.eColorFormat ≠ OMX_COLOR_FormatUnused then
      (.ErrorUnsupportedSetting, s)
    else
      (.ErrorNone, updatePortParams { s with mBitrate := p.nBitrate })
  else (.ErrorBadPortIndex, s)

/-- An incoming `OMX_VIDEO_PARAM_PORTFORMATTYPE` proposal. -/
structure VideoPortFormatParam where
  valid : Bool
  nPortIndex : Nat
  eColorFormat : Nat
  eCompressionFormat : Nat
  deriving DecidableEq, Repr

/-- An incoming `StoreMetaDataInBuffersParams` payload
(`kStoreMetaDataExtensionIndex`). -/
structure StoreMetaParam where
  valid : Bool
  nPortIndex : Nat
  bStoreMetaData : Bool
  deriving DecidableEq, Repr

/-- The three `internalSetParameter` cases that touch the modelled state
(`OMX_IndexParamPortDefinition`, `OMX_IndexParamVideoPortFormat`,
`kStoreMetaDataExtensionIndex`); the remaining cases
(`OMX_IndexParamVideoErrorCorrection`, component role, base default) return
without touching any modelled field. -/
inductive SetParam where
  | portDef (p : PortDefParam)
  | videoFormat (f : VideoPortFormatParam)
  | storeMeta (p : StoreMetaParam)

/-- Modelled from the spec: `SimpleSoftOMXComponent::internalSetParameter`
(base class, not among the sources).  Spec section 4.1: a successful change
always derives both buffer sizes from the authoritative
geometry/format/policy, so the base acceptance step keeps the configuration
recomputed by `updatePortParams` in place. -/
def simpleSetPortDefBase (s : CompState) (_p : PortDefParam) :
    OMXERRORTYPE × CompState :=
  (.ErrorNone, s)

/-- `SoftVideoEncoderOMXComponent::internalSetParameter` (lines 403-504)
restricted to the three state-bearing cases. -/
def internalSetParameter (s : CompState) (q : SetParam) :
    OMXERRORTYPE × CompState :=
  match q with
  | .portDef p =>
      let r := internalSetPortParams s p
      if r.1 ≠ .ErrorNone then r else simpleSetPortDefBase r.2 p
  | .videoFormat f =>
      if f.valid = false then (.ErrorBadParameter, s)
      else if f.nPortIndex = 0 then
        if f.eColorFormat = OMX_COLOR_FormatYUV420Planar ∨
            f.eColorFormat = OMX_COLOR_FormatYUV420SemiPlanar ∨
            f.eColorFormat = OMX_COLOR_FormatAndroidOpaque then
          (.ErrorNone, updatePortParams { s with mColorFormat := f.eColorFormat })
        else (.ErrorUnsupportedSetting, s)
      else if f.nPortIndex = 1 then
        if f.eCompressionFormat = s.mCodingType then (.ErrorNone, s)
        else (.ErrorUnsupportedSetting, s)
      else (.ErrorBadPortIndex, s)
  | .storeMeta p =>
      if p.valid = false then (.ErrorBadParameter, s)
      else if p.nPortIndex = 1 then
        if p.bStoreMetaData then (.ErrorUnsupportedSetting, s)
        else (.ErrorNone, s)
      else if p.nPortIndex ≠ 0 then (.ErrorBadPortIndex, s)
      else
        let s1 := { s with mInputDataIsMeta := p.bStoreMetaData }
        let s2 :=
          if s1.mInputDataIsMeta then
            { s1 with mColorFormat := OMX_COLOR_FormatAndroidOpaque }
          else if s1.mColorFormat = OMX_COLOR_FormatAndroidOpaque then
            { s1 with mColorFormat := OMX_COLOR_FormatYUV420Planar }
          else s1
        (.ErrorNone, updatePortParams s2)

/-- The expected frame size of `validateInputBuffer` (lines 1002-1004). -/
def expectedFrameSize (s : CompState) : Nat :=
  if s.mInputDataIsMeta then
    max sizeofVideoNativeMetadata sizeofVideoGrallocMetadata
  else s.mWidth * s.mHeight * 3 / 2

/-- `SoftVideoEncoderOMXComponent::validateInputBuffer` (lines 1000-1011):
rejects a buffer shorter than the expected frame size, only logs when it is
longer. -/
def validateInputBuffer (s : CompState) (nFilledLen : Nat) : OMXERRORTYPE :=
  if nFilledLen < expectedFrameSize s then .ErrorUndefined else .ErrorNone

/-- Component construction (lines 72-101) followed by `initPorts`
(lines 103-167): the constructor defaults, the two port definitions, and the
final `updatePortParams()` call. -/
def initState (codingType w h outputBufferSize compressionFactor : Nat) :
    CompState :=
  updatePortParams
    { mInputDataIsMeta := false
      mWidth := w
      mHeight := h
      mBitrate := 192000
      mFramerate := 30 * 65536
      mColorFormat := OMX_COLOR_FormatYUV420Planar
      mMinOutputBufferSize := outputBufferSize
      mMinCompressionFactor := compressionFactor
      mCodingType := codingType
      inDef := { nFrameWidth := w, nFrameHeight := h, nStride := w,
                 nSliceHeight := h, xFramerate := 30 * 65536, nBitrate := 0,
                 eCompressionFormat := OMX_VIDEO_CodingUnused,
                 eColorFormat := OMX_COLOR_FormatYUV420Planar,
                 nBufferSize := 0 }
      outDef := { nFrameWidth := w, nFrameHeight := h, nStride := 0,
                  nSliceHeight := 0, xFramerate := 0, nBitrate := 192000,
                  eCompressionFormat := codingType,
                  eColorFormat := OMX_COLOR_FormatUnused,
                  nBufferSize := 0 } }

/-- Platform flags read from `ro.hardware.egl` in
`internalGetParameter` (lines 593-604). -/
structure PlatformEnv where
  isMesa : Bool
  isPowervr : Bool
  isEmulation : Bool
  deriving DecidableEq, Repr

/-- Outcome of the port-definition query: `aborted` is a failed `CHECK`
(process abort), otherwise an OMX error or the returned definition. -/
inductive GetPortDefResult where
  | aborted
  | errResult (e : OMXERRORTYPE)
  | ok (d : PortDef)
  deriving DecidableEq, Repr

/-- `SoftVideoEncoderOMXComponent::internalGetParameter`, case
`OMX_IndexParamPortDefinition` (lines 573-613).  The base-class read is
modelled from the spec: `queryConfig(port)` is a pure read that copies the
stored configuration and never fails (`SimpleSoftOMXComponent` is not among
the sources).  The `CHECK(mColorFormat == ...)` on lines 607-608 aborts when
the platform is none of mesa/powervr/emulation and the color format is not
one of the two YUV420 layouts. -/
def internalGetParameterPortDef (s : CompState) (env : PlatformEnv)
    (nPortIndex : Nat) : GetPortDefResult :=
  if nPortIndex > 1 then .errResult .ErrorUndefined
  else
    if ¬(env.isMesa = true ∨ env.isPowervr = true ∨ env.isEmulation = true) ∧
        ¬(s.mColorFormat = OMX_COLOR_FormatYUV420Planar ∨
          s.mColorFormat = OMX_COLOR_FormatYUV420SemiPlanar) then
      .aborted
    else
      .ok { (if nPortIndex = 0 then s.inDef else s.outDef) with
            nFrameWidth := s.mWidth,
            nFrameHeight := s.mHeight,
            nBufferSize := s.mWidth * s.mHeight * 3 / 2 }

/-- Spec section 3 invariant on the stored output-port buffer size. -/
def OutputSizeInv (s : CompState) : Prop :=
  s.outDef.nBufferSize =
    max s.mMinOutputBufferSize
      (rawBufferSize s.mWidth s.mHeight / s.mMinCompressionFactor)

lemma updatePortParams_inv (t : CompState) : OutputSizeInv (updatePortParams t) := by
  simp [OutputSizeInv, updatePortParams]

lemma rawBufferSize_eq (w h : Nat) (hlt : w * h * 3 < U32MOD) :
    rawBufferSize w h = w * h * 3 / 2 := by
  unfold rawBufferSize
  rw [Nat.mod_eq_of_lt hlt]

lemma internalSetParameter_portDef (s : CompState) (p : PortDefParam) :
    internalSetParameter s (.portDef p) = internalSetPortParams s p := by
  by_cases h : (internalSetPortParams s p).1 = OMXERRORTYPE.ErrorNone
  · simp only [internalSetParameter, simpleSetPortDefBase, h, ne_eq,
      not_true_eq_false, if_false]
    rw [← h]
  · simp [internalSetParameter, simpleSetPortDefBase, h]

/-- Claim C1: every configuration change that returns `OMX_ErrorNone`
(port-definition, video-port-format or store-metadata update) leaves the
output port's buffer size equal to
`max(minOutputBufferSize, width*height*3/2 / minCompressionRatio)` for the
current input geometry and the construction-time policy values (stated below
the 2^32 wrap of the `uint32_t` product). -/
theorem c1_output_buffer_size_after_success (s : CompState) (q : SetParam)
    (hInv : OutputSizeInv s)
    (hOk : (internalSetParameter s q).1 = OMXERRORTYPE.ErrorNone) :
    OutputSizeInv (internalSetParameter s q).2 ∧
    ((internalSetParameter s q).2.mWidth * (internalSetParameter s q).2.mHeight * 3
        < U32MOD →
      (internalSetParameter s q).2.outDef.nBufferSize =
        max s.mMinOutputBufferSize
          ((internalSetParameter s q).2.mWidth * (internalSetParameter s q).2.mHeight
            * 3 / 2 / s.mMinCompressionFactor)) := by
  cases q with
  | portDef p =>
      rw [internalSetParameter_portDef] at hOk ⊢
      unfold internalSetPortParams at hOk ⊢
      split_ifs at hOk ⊢ <;> simp_all <;>
      first
        | (refine ⟨updatePortParams_inv _, ?_⟩
           intro h32
           simp only [updatePortParams] at h32 ⊢
           rw [rawBufferSize_eq _ _ h32])
        | (refine ⟨hInv, ?_⟩
           intro h32
           rw [OutputSizeInv] at hInv
           rw [hInv, rawBufferSize_eq _ _ h32])
        | (intro h32
           rw [OutputSizeInv] at hInv
           rw [hInv, rawBufferSize_eq _ _ h32])
  | videoFormat f =>
      simp only [internalSetParameter] at hOk ⊢
      split_ifs at hOk ⊢ <;> simp_all <;>
      first
        | (refine ⟨updatePortParams_inv _, ?_⟩
           intro h32
           simp only [updatePortParams] at h32 ⊢
           rw [rawBufferSize_eq _ _ h32])
        | (refine ⟨hInv, ?_⟩
           intro h32
           rw [OutputSizeInv] at hInv
           rw [hInv, rawBufferSize_eq _ _ h32])
        | (intro h32
           rw [OutputSizeInv] at hInv
           rw [hInv, rawBufferSize_eq _ _ h32])
  | storeMeta p =>
      simp only [internalSetParameter] at hOk ⊢
      split_ifs at hOk ⊢ <;> simp_all <;>
      first
        | (refine ⟨updatePortParams_inv _, ?_⟩
           intro h32
           simp only [updatePortParams] at h32 ⊢
           rw [rawBufferSize_eq _ _ h32])
        | (refine ⟨hInv, ?_⟩
           intro h32
           rw [OutputSizeInv] at hInv
           rw [hInv, rawBufferSize_eq _ _ h32])
        | (intro h32
           rw [OutputSizeInv] at hInv
           rw [hInv, rawBufferSize_eq _ _ h32])

/-- Witness for C1: a concrete component accepting a 320x240 input
port definition. -/
theorem c1_output_buffer_size_after_success_witness :
    OutputSizeInv (initState 7 176 144 4096 1) ∧
    (internalSetParameter (initState 7 176 144 4096 1)
        (.portDef ⟨true, 0, 320, 240, 15 * 65536, 0, 0, 19⟩)).1 =
      OMXERRORTYPE.ErrorNone ∧
    (OutputSizeInv (internalSetParameter (initState 7 176 144 4096 1)
        (.portDef ⟨true, 0, 320, 240, 15 * 65536, 0, 0, 19⟩)).2 ∧
     ((internalSetParameter (initState 7 176 144 4096 1)
          (.portDef ⟨true, 0, 320, 240, 15 * 65536, 0, 0, 19⟩)).2.mWidth *
        (internalSetParameter (initState 7 176 144 4096 1)
          (.portDef ⟨true, 0, 320, 240, 15 * 65536, 0, 0, 19⟩)).2.mHeight * 3
          < U32MOD →
      (internalSetParameter (initState 7 176 144 4096 1)
          (.portDef ⟨true, 0, 320, 240, 15 * 65536, 0, 0, 19⟩)).2.outDef.nBufferSize =
        max (initState 7 176 144 4096 1).mMinOutputBufferSize
          ((internalSetParameter (initState 7 176 144 4096 1)
              (.portDef ⟨true, 0, 320, 240, 15 * 65536, 0, 0, 19⟩)).2.mWidth *
            (internalSetParameter (initState 7 176 144 4096 1)
              (.portDef ⟨true, 0, 320, 240, 15 * 65536, 0, 0, 19⟩)).2.mHeight
            * 3 / 2 / (initState 7 176 144 4096 1).mMinCompressionFactor))) :=
  ⟨by unfold OutputSizeInv; decide, by decide,
   c1_output_buffer_size_after_success _ _ (by unfold OutputSizeInv; decide)
     (by decide)⟩

lemma upp_mColorFormat (s : CompState) :
    (updatePortParams s).mColorFormat = s.mColorFormat := rfl

lemma storeMeta_enable (s : CompState) :
    internalSetParameter s (.storeMeta ⟨true, 0, true⟩) =
      (OMXERRORTYPE.ErrorNone,
       updatePortParams
         { s with mInputDataIsMeta := true,
                  mColorFormat := OMX_COLOR_FormatAndroidOpaque }) := by
  simp [internalSetParameter]

lemma storeMeta_disable (s : CompState) :
    internalSetParameter s (.storeMeta ⟨true, 0, false⟩) =
      (OMXERRORTYPE.ErrorNone,
       updatePortParams
         (if s.mColorFormat = OMX_COLOR_FormatAndroidOpaque then
            { s with mInputDataIsMeta := false,
                     mColorFormat := OMX_COLOR_FormatYUV420Planar }
          else { s with mInputDataIsMeta := false })) := by
  simp only [internalSetParameter]
  split_ifs with h1 h2 h3 h4 h5 <;> simp_all

/-- Claim C2: enabling store-metadata on the input port forces the input
color format to `OMX_COLOR_FormatAndroidOpaque`; disabling it afterwards
(with no intervening format change) resets the format to
`OMX_COLOR_FormatYUV420Planar` exactly, and disabling while the format is not
`AndroidOpaque` leaves the format unchanged. -/
theorem c2_metadata_toggle_roundtrip (s : CompState)
    (hs : s.mColorFormat = OMX_COLOR_FormatYUV420Planar ∨
          s.mColorFormat = OMX_COLOR_FormatYUV420SemiPlanar) :
    (internalSetParameter s (.storeMeta ⟨true, 0, true⟩)).1 =
      OMXERRORTYPE.ErrorNone ∧
    (internalSetParameter s (.storeMeta ⟨true, 0, true⟩)).2.mColorFormat =
      OMX_COLOR_FormatAndroidOpaque ∧
    (internalSetParameter
        (internalSetParameter s (.storeMeta ⟨true, 0, true⟩)).2
        (.storeMeta ⟨true, 0, false⟩)).1 = OMXERRORTYPE.ErrorNone ∧
    (internalSetParameter
        (internalSetParameter s (.storeMeta ⟨true, 0, true⟩)).2
        (.storeMeta ⟨true, 0, false⟩)).2.mColorFormat =
      OMX_COLOR_FormatYUV420Planar ∧
    (∀ t : CompState, t.mColorFormat ≠ OMX_COLOR_FormatAndroidOpaque →
      (internalSetParameter t (.storeMeta ⟨true, 0, false⟩)).2.mColorFormat =
        t.mColorFormat) := by
  clear hs
  rw [storeMeta_enable]
  refine ⟨rfl, rfl, ?_, ?_, ?_⟩
  · rw [storeMeta_disable]
  · rw [storeMeta_disable, upp_mColorFormat]
    rw [if_pos (by rw [upp_mColorFormat])]
  · intro t ht
    rw [storeMeta_disable, upp_mColorFormat, if_neg ht]

/-- Witness for C2: toggling on a concrete freshly initialised component. -/
theorem c2_metadata_toggle_roundtrip_witness :
    ((initState 7 176 144 4096 1).mColorFormat = OMX_COLOR_FormatYUV420Planar ∨
     (initState 7 176 144 4096 1).mColorFormat =
       OMX_COLOR_FormatYUV420SemiPlanar) ∧
    (internalSetParameter (initState 7 176 144 4096 1)
        (.storeMeta ⟨true, 0, true⟩)).2.mColorFormat =
      OMX_COLOR_FormatAndroidOpaque ∧
    (internalSetParameter
        (internalSetParameter (initState 7 176 144 4096 1)
          (.storeMeta ⟨true, 0, true⟩)).2
        (.storeMeta ⟨true, 0, false⟩)).2.mColorFormat =
      OMX_COLOR_FormatYUV420Planar :=
  ⟨Or.inl (by decide),
   ((c2_metadata_toggle_roundtrip (initState 7 176 144 4096 1)
      (Or.inl (by decide))).2.1),
   ((c2_metadata_toggle_roundtrip (initState 7 176 144 4096 1)
      (Or.inl (by decide))).2.2.2.1)⟩

/-- Claim C3: `validateInputBuffer` fails with `OMX_ErrorUndefined` exactly
when the filled length is below the expected size
(`max(sizeof(VideoNativeMetadata), sizeof(VideoGrallocMetadata))` in metadata
mode, `width*height*3/2` otherwise); equal or larger lengths succeed.  At
geometry 640x480, planar format, metadata off, the expected size is 460800
and length 460799 is rejected. -/
theorem c3_validate_input_buffer (s : CompState) (len : Nat) :
    (validateInputBuffer s len = OMXERRORTYPE.ErrorUndefined ↔
      len < expectedFrameSize s) ∧
    (validateInputBuffer s len = OMXERRORTYPE.ErrorNone ↔
      expectedFrameSize s ≤ len) ∧
    expectedFrameSize s =
      (if s.mInputDataIsMeta then
        max sizeofVideoNativeMetadata sizeofVideoGrallocMetadata
       else s.mWidth * s.mHeight * 3 / 2) ∧
    expectedFrameSize (initState 7 640 480 4096 1) = 460800 ∧
    validateInputBuffer (initState 7 640 480 4096 1) 460799 =
      OMXERRORTYPE.ErrorUndefined ∧
    validateInputBuffer (initState 7 640 480 4096 1) 460800 =
      OMXERRORTYPE.ErrorNone ∧
    validateInputBuffer (initState 7 640 480 4096 1) 460801 =
      OMXERRORTYPE.ErrorNone := by
  refine ⟨?_, ?_, rfl, by decide, by decide, by decide, by decide⟩
  · unfold validateInputBuffer
    split_ifs with h <;> simp [h]
  · unfold validateInputBuffer
    split_ifs with h <;> simp [h] <;> omega

/-- Counterexample to claim C8 as stated: a store-metadata request on the
output port asking to DISABLE metadata storage is not rejected — it returns
`OMX_ErrorNone` (line 486 returns `OMX_ErrorNone` when `bStoreMetaData` is
false). -/
theorem c8_counterexample :
    internalSetParameter (initState 7 176 144 4096 1)
        (.storeMeta ⟨true, 1, false⟩) =
      (OMXERRORTYPE.ErrorNone, initState 7 176 144 4096 1) := by
  rfl

/-- Claim C8 (amended): a store-metadata request on the output port is
rejected with `OMX_ErrorUnsupportedSetting` when it asks to enable metadata
storage, and returns `OMX_ErrorNone` without touching any state when it asks
to disable it; in neither case does the state change. -/
theorem c8_output_store_meta (s : CompState) (p : StoreMetaParam)
    (hv : p.valid = true) (hp : p.nPortIndex = 1) :
    internalSetParameter s (.storeMeta p) =
      ((if p.bStoreMetaData then OMXERRORTYPE.ErrorUnsupportedSetting
        else OMXERRORTYPE.ErrorNone), s) := by
  simp only [internalSetParameter, hv, hp]
  split_ifs <;> simp_all

/-- Witness for C8: both payload polarities on a concrete state. -/
theorem c8_output_store_meta_witness :
    (⟨true, 1, true⟩ : StoreMetaParam).valid = true ∧
    (⟨true, 1, true⟩ : StoreMetaParam).nPortIndex = 1 ∧
    internalSetParameter (initState 7 176 144 4096 1)
        (.storeMeta ⟨true, 1, true⟩) =
      (OMXERRORTYPE.ErrorUnsupportedSetting, initState 7 176 144 4096 1) :=
  ⟨rfl, rfl, c8_output_store_meta (initState 7 176 144 4096 1) ⟨true, 1, true⟩ rfl rfl⟩

/-- Counterexample to claim C9 as stated: with metadata mode enabled (color
format `AndroidOpaque`, a state reachable through the store-metadata toggle)
and `ro.hardware.egl` none of mesa/powervr/emulation, the port-definition
query hits the `CHECK(mColorFormat == ...)` on lines 607-608 and aborts
instead of succeeding. -/
theorem c9_counterexample :
    internalGetParameterPortDef
        (internalSetParameter (initState 7 176 144 4096 1)
          (.storeMeta ⟨true, 0, true⟩)).2
        ⟨false, false, false⟩ 0 = GetPortDefResult.aborted := by
  rfl

/-- Claim C9 (amended): for port ids 0 and 1 the port-definition query
modifies no component state (the model is a pure function of the state) and,
provided the platform is mesa/powervr/emulation or the current color format
is one of the two YUV420 layouts, succeeds, returning the stored definition
with the current geometry and buffer size `width*height*3/2`; when the color
format is `AndroidOpaque` on any other platform it CHECK-aborts. -/
theorem c9_get_port_def_query (s : CompState) (env : PlatformEnv) (port : Nat)
    (hport : port ≤ 1)
    (hok : env.isMesa = true ∨ env.isPowervr = true ∨ env.isEmulation = true ∨
      s.mColorFormat = OMX_COLOR_FormatYUV420Planar ∨
      s.mColorFormat = OMX_COLOR_FormatYUV420SemiPlanar) :
    internalGetParameterPortDef s env port =
      GetPortDefResult.ok
        { (if port = 0 then s.inDef else s.outDef) with
          nFrameWidth := s.mWidth,
          nFrameHeight := s.mHeight,
          nBufferSize := s.mWidth * s.mHeight * 3 / 2 } := by
  unfold internalGetParameterPortDef
  have hp2 : ¬ port > 1 := by omega
  rw [if_neg hp2]
  rcases hok with h | h | h | h | h <;> simp [h]

/-- Witness for C9: querying the output port of a concrete planar-format
component on a mesa platform. -/
theorem c9_get_port_def_query_witness :
    (1 : Nat) ≤ 1 ∧
    internalGetParameterPortDef (initState 7 176 144 4096 1)
        ⟨true, false, false⟩ 1 =
      GetPortDefResult.ok
        { (if (1 : Nat) = 0 then (initState 7 176 144 4096 1).inDef
           else (initState 7 176 144 4096 1).outDef) with
          nFrameWidth := (initState 7 176 144 4096 1).mWidth,
          nFrameHeight := (initState 7 176 144 4096 1).mHeight,
          nBufferSize := (initState 7 176 144 4096 1).mWidth *
            (initState 7 176 144 4096 1).mHeight * 3 / 2 } :=
  ⟨le_refl 1,
   c9_get_port_def_query (initState 7 176 144 4096 1) ⟨true, false, false⟩ 1
     (by decide) (Or.inl rfl)⟩

/-- Claim C7: an output-port definition proposal whose compression format
differs from the instance's coding type, or whose color format is not
`OMX_COLOR_FormatUnused`, is rejected with `OMX_ErrorUnsupportedSetting` and
the whole component state is returned unchanged. -/
theorem c7_output_reject_no_mutation (s : CompState) (p : PortDefParam)
    (hv : p.valid = true) (hp : p.nPortIndex = 1)
    (hbad : p.eCompressionFormat ≠ s.mCodingType ∨
      p.eColorFormat ≠ OMX_COLOR_FormatUnused) :
    internalSetParameter s (.portDef p) =
      (OMXERRORTYPE.ErrorUnsupportedSetting, s) := by
  rw [internalSetParameter_portDef]
  unfold internalSetPortParams
  rw [hp, hv]
  simp [hbad]

/-- Witness for C7: rejecting a raw-color output proposal on a concrete
state. -/
theorem c7_output_reject_no_mutation_witness :
    (⟨true, 1, 176, 144, 0, 300000, 7, 19⟩ : PortDefParam).valid = true ∧
    (⟨true, 1, 176, 144, 0, 300000, 7, 19⟩ : PortDefParam).nPortIndex = 1 ∧
    internalSetParameter (initState 7 176 144 4096 1)
        (.portDef ⟨true, 1, 176, 144, 0, 300000, 7, 19⟩) =
      (OMXERRORTYPE.ErrorUnsupportedSetting, initState 7 176 144 4096 1) :=
  ⟨rfl, rfl,
   c7_output_reject_no_mutation _ _ rfl rfl (Or.inr (by decide))⟩

/-- Claim C10: an input-port definition proposal rejected for an unsupported
format has nevertheless already overwritten `mWidth`, `mHeight` and
`mFramerate`; no other member changes and neither port's stored definition
(in particular neither buffer size) is recomputed. -/
theorem c10_rejected_input_mutates_geometry (s : CompState) (p : PortDefParam)
    (hv : p.valid = true) (hp : p.nPortIndex = 0)
    (hbad : p.eCompressionFormat ≠ OMX_VIDEO_CodingUnused ∨
      (p.eColorFormat ≠ OMX_COLOR_FormatYUV420Planar ∧
       p.eColorFormat ≠ OMX_COLOR_FormatYUV420SemiPlanar ∧
       p.eColorFormat ≠ OMX_COLOR_FormatAndroidOpaque)) :
    internalSetParameter s (.portDef p) =
      (OMXERRORTYPE.ErrorUnsupportedSetting,
       { s with mWidth := p.nFrameWidth, mHeight := p.nFrameHeight,
                mFramerate := p.xFramerate }) := by
  rw [internalSetParameter_portDef]
  unfold internalSetPortParams
  rw [hp, hv]
  simp [hbad]

/-- Witness for C10: a rejected 1234x567 RGB565 proposal still stores the
proposed geometry and framerate. -/
theorem c10_rejected_input_mutates_geometry_witness :
    (⟨true, 0, 1234, 567, 20 * 65536, 0, 0, 6⟩ : PortDefParam).valid = true ∧
    (⟨true, 0, 1234, 567, 20 * 65536, 0, 0, 6⟩ : PortDefParam).nPortIndex = 0 ∧
    internalSetParameter (initState 7 176 144 4096 1)
        (.portDef ⟨true, 0, 1234, 567, 20 * 65536, 0, 0, 6⟩) =
      (OMXERRORTYPE.ErrorUnsupportedSetting,
       { initState 7 176 144 4096 1 with
          mWidth := 1234, mHeight := 567, mFramerate := 20 * 65536 }) :=
  ⟨rfl, rfl,
   c10_rejected_input_mutates_geometry _ _ rfl rfl (Or.inr (by decide))⟩

/-! ### `ConvertYUV420SemiPlanarToYUV420Planar` (lines 663-692)

The conversion walks the interleaved chroma region one little-endian
`uint32_t` word at a time and emits one `uint16_t` per chroma plane per word.
Bytes are Nat values below 256; the fixed-width masks/shifts become mod/div
arithmetic. -/

/-- Little-endian `uint32_t` read of four consecutive bytes
(`uint32_t temp = *inYVU_4++;`). -/
def word32 (b0 b1 b2 b3 : Nat) : Nat :=
  b0 + b1 * 256 + b2 * 65536 + b3 * 16777216

/-- `tempU = (temp & 0xFF) | ((temp >> 8) & 0xFF00)` — `t & 0xFF` is
`t % 256`, `(t >> 8) & 0xFF00` is `t / 65536 % 256 * 256`, and the `|` of the
two disjoint byte lanes is `+`. -/
def tempU (t : Nat) : Nat := t % 256 + t / 65536 % 256 * 256

/-- `tempV = ((temp >> 8) & 0xFF) | ((temp >> 16) & 0xFF00)` likewise. -/
def tempV (t : Nat) : Nat := t / 256 % 256 + t / 16777216 % 256 * 256

/-- The chroma loop (lines 679-691): the fuel argument counts the
`(height>>1) * (width>>2)` word iterations; each iteration reads four bytes
and stores `tempU`/`tempV` as two little-endian bytes on the Cb/Cr planes. -/
def deintChroma : Nat → List Nat → List Nat × List Nat
  | 0, _ => ([], [])
  | n + 1, b0 :: b1 :: b2 :: b3 :: rest =>
      (tempU (word32 b0 b1 b2 b3) % 256 ::
         tempU (word32 b0 b1 b2 b3) / 256 % 256 :: (deintChroma n rest).1,
       tempV (word32 b0 b1 b2 b3) % 256 ::
         tempV (word32 b0 b1 b2 b3) / 256 % 256 :: (deintChroma n rest).2)
  | _ + 1, _ => ([], [])

/-- `SoftVideoEncoderOMXComponent::ConvertYUV420SemiPlanarToYUV420Planar`
on a byte list: luma (`width*height` bytes) copied verbatim (`memcpy`), then
the de-interleaved chroma planes.  `outCb` sits at offset `outYsize` and
`outCr` at `outYsize + (outYsize >> 2)`, which is exactly where the appended
Cb plane ends when `width` is a multiple of 4 and `height` is even. -/
def ConvertYUV420SemiPlanarToYUV420Planar (inYVU : List Nat)
    (width height : Nat) : List Nat :=
  inYVU.take (width * height) ++
    (deintChroma (height / 2 * (width / 4)) (inYVU.drop (width * height))).1 ++
    (deintChroma (height / 2 * (width / 4)) (inYVU.drop (width * height))).2

/-- Reference packer from the claim: bytewise interleaving of the two chroma
planes. -/
def interleave : List Nat → List Nat → List Nat
  | u :: us, v :: vs => u :: v :: interleave us vs
  | _, _ => []

/-- Reference planar-to-semiplanar packer from the claim: the luma plane
followed by the interleaved Cb/Cr chroma planes. -/
def packPlanarToSemiPlanar (yP cbP crP : List Nat) : List Nat :=
  yP ++ interleave cbP crP

lemma tempU_word32 (b0 b1 b2 b3 : Nat) (h0 : b0 < 256) (h1 : b1 < 256)
    (h2 : b2 < 256) (h3 : b3 < 256) :
    tempU (word32 b0 b1 b2 b3) = b0 + b2 * 256 := by
  unfold tempU word32
  omega

lemma tempV_word32 (b0 b1 b2 b3 : Nat) (h0 : b0 < 256) (h1 : b1 < 256)
    (h2 : b2 < 256) (h3 : b3 < 256) :
    tempV (word32 b0 b1 b2 b3) = b1 + b3 * 256 := by
  unfold tempV word32
  omega

lemma deintChroma_interleave : ∀ (k : Nat) (cb cr : List Nat),
    cb.length = 2 * k → cr.length = 2 * k →
    (∀ b ∈ cb, b < 256) → (∀ b ∈ cr, b < 256) →
    deintChroma k (interleave cb cr) = (cb, cr) := by
  intro k
  induction k with
  | zero =>
      intro cb cr hcb hcr _ _
      rcases cb with _ | ⟨c0, cb2⟩
      · rcases cr with _ | ⟨d0, cr2⟩
        · rfl
        · simp at hcr
      · simp at hcb
  | succ n ih =>
      intro cb cr hcb hcr hbcb hbcr
      cases cb with
      | nil => simp only [List.length_nil, List.length_cons] at hcb; omega
      | cons c0 cbt =>
      cases cbt with
      | nil => simp only [List.length_nil, List.length_cons] at hcb; omega
      | cons c1 cb2 =>
      cases cr with
      | nil => simp only [List.length_nil, List.length_cons] at hcr; omega
      | cons d0 crt =>
      cases crt with
      | nil => simp only [List.length_nil, List.length_cons] at hcr; omega
      | cons d1 cr2 =>
      simp only [List.length_cons] at hcb hcr
      have hc0 : c0 < 256 := hbcb c0 (by simp)
      have hc1 : c1 < 256 := hbcb c1 (by simp)
      have hd0 : d0 < 256 := hbcr d0 (by simp)
      have hd1 : d1 < 256 := hbcr d1 (by simp)
      have hstep : interleave (c0 :: c1 :: cb2) (d0 :: d1 :: cr2) =
          c0 :: d0 :: c1 :: d1 :: interleave cb2 cr2 := by
        simp [interleave]
      rw [hstep]
      have hrec : deintChroma n (interleave cb2 cr2) = (cb2, cr2) :=
        ih cb2 cr2 (by omega) (by omega)
          (fun b hb => hbcb b (by simp [hb]))
          (fun b hb => hbcr b (by simp [hb]))
      have e1 : (c0 + c1 * 256) % 256 = c0 := by omega
      have e2 : (c0 + c1 * 256) / 256 % 256 = c1 := by omega
      have e3 : (d0 + d1 * 256) % 256 = d0 := by omega
      have e4 : (d0 + d1 * 256) / 256 % 256 = d1 := by omega
      simp only [deintChroma, hrec,
        tempU_word32 c0 d0 c1 d1 hc0 hd0 hc1 hd1,
        tempV_word32 c0 d0 c1 d1 hc0 hd0 hc1 hd1, e1, e2, e3, e4]

/-- Claim C4: for width divisible by 4 and positive even height,
`ConvertYUV420SemiPlanarToYUV420Planar` is a left-inverse of the reference
planar-to-semiplanar packer: running the conversion on the packed image
recovers the luma plane and both chroma planes byte-for-byte. -/
theorem c4_semiplanar_roundtrip (w h : Nat) (yP cbP crP : List Nat)
    (hw : w % 4 = 0) (hh : h % 2 = 0) (hpos : 0 < h)
    (hy : yP.length = w * h)
    (hcb : cbP.length = w / 2 * (h / 2)) (hcr : crP.length = w / 2 * (h / 2))
    (hbcb : ∀ b ∈ cbP, b < 256) (hbcr : ∀ b ∈ crP, b < 256) :
    ConvertYUV420SemiPlanarToYUV420Planar (packPlanarToSemiPlanar yP cbP crP)
        w h = yP ++ cbP ++ crP := by
  obtain ⟨a, rfl⟩ : ∃ a, w = 4 * a := ⟨w / 4, by omega⟩
  have h2 : 4 * a / 2 = 2 * a := by omega
  have h4 : 4 * a / 4 = a := by omega
  rw [h2] at hcb hcr
  unfold ConvertYUV420SemiPlanarToYUV420Planar packPlanarToSemiPlanar
  rw [h4, ← hy, List.take_left, List.drop_left]
  rw [deintChroma_interleave (h / 2 * a) cbP crP
        (by rw [hcb]; ring) (by rw [hcr]; ring) hbcb hbcr]

/-- Witness for C4: a concrete 4x2 image. -/
theorem c4_semiplanar_roundtrip_witness :
    (4 % 4 = 0 ∧ 2 % 2 = 0 ∧ 0 < 2 ∧
     ([1, 2, 3, 4, 5, 6, 7, 8] : List Nat).length = 4 * 2 ∧
     ([10, 11] : List Nat).length = 4 / 2 * (2 / 2) ∧
     ([20, 21] : List Nat).length = 4 / 2 * (2 / 2) ∧
     (∀ b ∈ ([10, 11] : List Nat), b < 256) ∧
     (∀ b ∈ ([20, 21] : List Nat), b < 256)) ∧
    ConvertYUV420SemiPlanarToYUV420Planar
        (packPlanarToSemiPlanar [1, 2, 3, 4, 5, 6, 7, 8] [10, 11] [20, 21]) 4 2 =
      [1, 2, 3, 4, 5, 6, 7, 8] ++ [10, 11] ++ [20, 21] :=
  ⟨⟨rfl, rfl, by decide, rfl, rfl, rfl, by decide, by decide⟩,
   c4_semiplanar_roundtrip 4 2 [1, 2, 3, 4, 5, 6, 7, 8] [10, 11] [20, 21]
     rfl rfl (by decide) rfl rfl rfl (by decide) (by decide)⟩

/-! ### `ConvertRGB32ToPlanar` (lines 694-754)

Destination memory is byte-addressed (`Mem`); the function is translated as
the two nested loops writing through the three plane pointers.  `unsigned`
(32-bit) arithmetic uses explicit `% 2^32`; `>> 8` on an `unsigned` value is
division by 256; a `uint8_t` store truncates with `% 256`.  The
`SURFACE_IS_BGR32` macro is taken as undefined (the `bgr = !bgr` flip is
compiled out). -/

/-- Byte-addressed memory. -/
def Mem : Type := Nat → Nat

/-- A `uint8_t` store: the stored value is truncated to a byte. -/
def wr (m : Mem) (a v : Nat) : Mem := fun b => if b = a then v % 256 else m b

/-- A `uint8_t` read. -/
def byteAt (m : Mem) (a : Nat) : Nat := m a % 256

/-- `const size_t redOffset = bgr ? 2 : 0;` (line 710). -/
def redOff (bgr : Bool) : Nat := if bgr then 2 else 0

/-- `const size_t blueOffset = bgr ? 0 : 2;` (line 712). -/
def blueOff (bgr : Bool) : Nat := if bgr then 0 else 2

/-- `unsigned luma = ((red * 65 + green * 129 + blue * 25 + 128) >> 8) + 16;`
(line 728); for byte inputs the value never reaches 2^32. -/
def lumaVal (r g b : Nat) : Nat :=
  (r * 65 + g * 129 + b * 25 + 128) / 256 + 16

/-- `uint32_t` addition. -/
def uadd (a b : Nat) : Nat := (a + b) % U32MOD

/-- `uint32_t` subtraction (two's complement wraparound). -/
def usub (a b : Nat) : Nat := (a + (U32MOD - b % U32MOD)) % U32MOD

/-- `uint32_t` negation. -/
def uneg (a : Nat) : Nat := (U32MOD - a % U32MOD) % U32MOD

/-- `uint32_t` multiplication. -/
def umul (a b : Nat) : Nat := a * b % U32MOD

/-- `unsigned U = ((-red * 38 - green * 74 + blue * 112 + 128) >> 8) + 128;`
(lines 734-735), evaluated left to right in `unsigned` arithmetic. -/
def chromaUVal (r g b : Nat) : Nat :=
  uadd (uadd (usub (umul (uneg r) 38) (umul g 74)) (umul b 112)) 128 / 256 + 128

/-- `unsigned V = ((red * 112 - green * 94 - blue * 18 + 128) >> 8) + 128;`
(lines 737-738). -/
def chromaVVal (r g b : Nat) : Nat :=
  uadd (usub (usub (umul r 112) (umul g 94)) (umul b 18)) 128 / 256 + 128

/-- The body of the inner x-loop (lines 715-743): read the pixel's bytes at
`pSrc` (offsets swapped when `bgr`), store the luma byte at `dstY + x`, and
when both `x` and the row are even store the chroma bytes at
`dstU + (x >> 1)` and `dstV + (x >> 1)`. -/
def pixelWrites (src : Mem) (bgr yEven : Bool) (pSrc pY pU pV x : Nat)
    (m : Mem) : Mem :=
  let red := byteAt src (pSrc + redOff bgr)
  let green := byteAt src (pSrc + 1)
  let blue := byteAt src (pSrc + blueOff bgr)
  let m1 := wr m (pY + x) (lumaVal red green blue)
  if x % 2 = 0 ∧ yEven = true then
    wr (wr m1 (pU + x / 2) (chromaUVal red green blue)) (pV + x / 2)
      (chromaVVal red green blue)
  else m1

/-- The inner x-loop (line 715): fuel is the remaining pixel count, `x` the
current column, `pSrc` the current source pointer (`src += 4` per pixel). -/
def innerLoop (src : Mem) (bgr yEven : Bool) (pY pU pV : Nat) :
    Nat → Nat → Nat → Mem → Mem
  | 0, _, _, m => m
  | n + 1, x, pSrc, m =>
      innerLoop src bgr yEven pY pU pV n (x + 1) (pSrc + 4)
        (pixelWrites src bgr yEven pSrc pY pU pV x m)

/-- The outer y-loop (line 714): after each row `src += srcStride - 4*width`
(on top of the in-row `4*width` advance), `dstY += dstStride`, and on even
rows the chroma pointers advance by `dstStride >> 1` (lines 746-752). -/
def outerLoop (src : Mem) (bgr : Bool) (w srcStride ds : Nat) :
    Nat → Nat → Nat → Nat → Nat → Nat → Mem → Mem
  | 0, _, _, _, _, _, m => m
  | n + 1, y, pSrc, pY, pU, pV, m =>
      outerLoop src bgr w srcStride ds n (y + 1)
        (pSrc + 4 * w + (srcStride - 4 * w)) (pY + ds)
        (if y % 2 = 0 then pU + ds / 2 else pU)
        (if y % 2 = 0 then pV + ds / 2 else pV)
        (innerLoop src bgr (decide (y % 2 = 0)) pY pU pV w 0 pSrc m)

/-- `SoftVideoEncoderOMXComponent::ConvertRGB32ToPlanar` (lines 696-754):
`dstU = dstY + dstStride * dstVStride;`
`dstV = dstU + (dstStride >> 1) * (dstVStride >> 1);` then the two loops. -/
def ConvertRGB32ToPlanar (dst : Mem) (dstY dstStride dstVStride : Nat)
    (src : Mem) (pSrc w h srcStride : Nat) (bgr : Bool) : Mem :=
  outerLoop src bgr w srcStride dstStride h 0 pSrc dstY
    (dstY + dstStride * dstVStride)
    (dstY + dstStride * dstVStride + dstStride / 2 * (dstVStride / 2)) dst

lemma row_lt (yA yB xA dsv xB : Nat) (h : yA < yB) (hx : xA < dsv) :
    yA * dsv + xA < yB * dsv + xB := by
  have h1 : yA * dsv + xA < (yA + 1) * dsv := by
    rw [Nat.add_mul, Nat.one_mul]
    set A := yA * dsv
    omega
  have h2 : (yA + 1) * dsv ≤ yB * dsv := Nat.mul_le_mul_right dsv h
  set A := yA * dsv
  set B := (yA + 1) * dsv
  set C := yB * dsv
  omega

lemma innerLoop_frame (src : Mem) (bgr yEven : Bool) (pY pU pV a : Nat) :
    ∀ (n x pSrc : Nat) (m : Mem),
    (∀ j, x ≤ j → j < x + n → a ≠ pY + j) →
    (∀ j, x ≤ j → j < x + n → j % 2 = 0 → yEven = true →
      a ≠ pU + j / 2 ∧ a ≠ pV + j / 2) →
    innerLoop src bgr yEven pY pU pV n x pSrc m a = m a := by
  intro n
  induction n with
  | zero => intro x pSrc m _ _; rfl
  | succ k ih =>
      intro x pSrc m hY hUV
      have hpix : pixelWrites src bgr yEven pSrc pY pU pV x m a = m a := by
        have hy := hY x le_rfl (by omega)
        unfold pixelWrites wr
        by_cases hx : x % 2 = 0 ∧ yEven = true
        · obtain ⟨hu, hv⟩ := hUV x le_rfl (by omega) hx.1 hx.2
          simp [hx, hy, hu, hv]
        · simp [hx, hy]
      simp only [innerLoop]
      rw [ih (x + 1) (pSrc + 4) _
        (fun j h1 h2 => hY j (by omega) (by omega))
        (fun j h1 h2 => hUV j (by omega) (by omega)), hpix]

lemma pixelWrites_luma (src : Mem) (bgr yEven : Bool) (pSrc pY pU pV x : Nat)
    (m : Mem) (h1 : pY + x < pU) (h2 : pU ≤ pV) :
    pixelWrites src bgr yEven pSrc pY pU pV x m (pY + x) =
      lumaVal (byteAt src (pSrc + redOff bgr)) (byteAt src (pSrc + 1))
        (byteAt src (pSrc + blueOff bgr)) % 256 := by
  unfold pixelWrites wr
  by_cases hx : x % 2 = 0 ∧ yEven = true
  · have hu : pY + x ≠ pU + x / 2 := by omega
    have hv : pY + x ≠ pV + x / 2 := by omega
    simp [hx, hu, hv]
  · simp [hx]

lemma pixelWrites_chromaU (src : Mem) (bgr : Bool) (pSrc pY pU pV x : Nat)
    (m : Mem) (hx : x % 2 = 0) (h1 : pY + x < pU) (h2 : pU + x / 2 < pV) :
    pixelWrites src bgr true pSrc pY pU pV x m (pU + x / 2) =
      chromaUVal (byteAt src (pSrc + redOff bgr)) (byteAt src (pSrc + 1))
        (byteAt src (pSrc + blueOff bgr)) % 256 := by
  unfold pixelWrites wr
  have hv : pU + x / 2 ≠ pV + x / 2 := by omega
  simp [hx, hv]

lemma pixelWrites_chromaV (src : Mem) (bgr : Bool) (pSrc pY pU pV x : Nat)
    (m : Mem) (hx : x % 2 = 0) :
    pixelWrites src bgr true pSrc pY pU pV x m (pV + x / 2) =
      chromaVVal (byteAt src (pSrc + redOff bgr)) (byteAt src (pSrc + 1))
        (byteAt src (pSrc + blueOff bgr)) % 256 := by
  unfold pixelWrites wr
  simp [hx]

lemma innerLoop_luma (src : Mem) (bgr yEven : Bool) (pY pU pV : Nat) :
    ∀ (n x pSrc : Nat) (m : Mem) (j : Nat),
    x ≤ j → j < x + n → pY + x + n ≤ pU → pU ≤ pV →
    innerLoop src bgr yEven pY pU pV n x pSrc m (pY + j) =
      lumaVal (byteAt src (pSrc + 4 * (j - x) + redOff bgr))
        (byteAt src (pSrc + 4 * (j - x) + 1))
        (byteAt src (pSrc + 4 * (j - x) + blueOff bgr)) % 256 := by
  intro n
  induction n with
  | zero => intro x pSrc m j h1 h2 _ _; omega
  | succ k ih =>
      intro x pSrc m j h1 h2 hYU hUV
      simp only [innerLoop]
      by_cases hj : j = x
      · subst hj
        have hframe := innerLoop_frame src bgr yEven pY pU pV (pY + j) k
          (j + 1) (pSrc + 4) (pixelWrites src bgr yEven pSrc pY pU pV j m)
          (fun j2 hj1 hj2 => by omega)
          (fun j2 hj1 hj2 _ _ => ⟨by omega, by omega⟩)
        rw [hframe,
          pixelWrites_luma src bgr yEven pSrc pY pU pV j m (by omega) hUV]
        simp
      · have ihh := ih (x + 1) (pSrc + 4)
          (pixelWrites src bgr yEven pSrc pY pU pV x m) j (by omega) (by omega)
          (by omega) hUV
        have harith : pSrc + 4 + 4 * (j - (x + 1)) = pSrc + 4 * (j - x) := by
          omega
        rw [harith] at ihh
        exact ihh

lemma innerLoop_chroma (src : Mem) (bgr : Bool) (pY pU pV : Nat) :
    ∀ (n x pSrc : Nat) (m : Mem) (j : Nat),
    x ≤ j → j < x + n → j % 2 = 0 →
    pY + x + n ≤ pU → pU + (x + n + 1) / 2 ≤ pV →
    innerLoop src bgr true pY pU pV n x pSrc m (pU + j / 2) =
      chromaUVal (byteAt src (pSrc + 4 * (j - x) + redOff bgr))
        (byteAt src (pSrc + 4 * (j - x) + 1))
        (byteAt src (pSrc + 4 * (j - x) + blueOff bgr)) % 256 ∧
    innerLoop src bgr true pY pU pV n x pSrc m (pV + j / 2) =
      chromaVVal (byteAt src (pSrc + 4 * (j - x) + redOff bgr))
        (byteAt src (pSrc + 4 * (j - x) + 1))
        (byteAt src (pSrc + 4 * (j - x) + blueOff bgr)) % 256 := by
  intro n
  induction n with
  | zero => intro x pSrc m j h1 h2 _ _ _; omega
  | succ k ih =>
      intro x pSrc m j h1 h2 hj2 hYU hUV
      simp only [innerLoop]
      by_cases hj : j = x
      · subst hj
        have hframeU := innerLoop_frame src bgr true pY pU pV (pU + j / 2) k
          (j + 1) (pSrc + 4) (pixelWrites src bgr true pSrc pY pU pV j m)
          (fun j2 hj1 hj2b => by omega)
          (fun j2 hj1 hj2b hj2e _ => ⟨by omega, by omega⟩)
        have hframeV := innerLoop_frame src bgr true pY pU pV (pV + j / 2) k
          (j + 1) (pSrc + 4) (pixelWrites src bgr true pSrc pY pU pV j m)
          (fun j2 hj1 hj2b => by omega)
          (fun j2 hj1 hj2b hj2e _ => ⟨by omega, by omega⟩)
        rw [hframeU, hframeV,
          pixelWrites_chromaU src bgr pSrc pY pU pV j m hj2 (by omega)
            (by omega),
          pixelWrites_chromaV src bgr pSrc pY pU pV j m hj2]
        simp
      · have ihh := ih (x + 1) (pSrc + 4)
          (pixelWrites src bgr true pSrc pY pU pV x m) j (by omega) (by omega)
          hj2 (by omega) (by omega)
        have harith : pSrc + 4 + 4 * (j - (x + 1)) = pSrc + 4 * (j - x) := by
          omega
        rw [harith] at ihh
        exact ihh

/-- Number of even row indices in `[y, y + r)` — tracks how often the chroma
pointers have advanced after `r` rows starting from row `y`. -/
def eCnt (y r : Nat) : Nat := (y + r + 1) / 2 - (y + 1) / 2

lemma mul_succ_row (y ds : Nat) : (y + 1) * ds = y * ds + ds := by
  rw [Nat.add_mul, Nat.one_mul]

lemma row_bound2 (y x ds vs : Nat) (hy : y < vs) (hx : x < ds) :
    y * ds + x < ds * vs := by
  have h := row_lt y vs x ds 0 hy hx
  rw [Nat.mul_comm ds vs]
  set A := y * ds
  set B := vs * ds
  omega

lemma outerLoop_frame (src : Mem) (bgr : Bool) (w srcStride ds a : Nat)
    (hwds : w ≤ ds) (hds2 : ds % 2 = 0) :
    ∀ (n y pSrc pY pU pV : Nat) (m : Mem),
    (∀ r j, r < n → j < w → a ≠ pY + r * ds + j) →
    (∀ r j, r < n → (y + r) % 2 = 0 → j < w → j % 2 = 0 →
      a ≠ pU + eCnt y r * (ds / 2) + j / 2 ∧
      a ≠ pV + eCnt y r * (ds / 2) + j / 2) →
    outerLoop src bgr w srcStride ds n y pSrc pY pU pV m a = m a := by
  intro n
  induction n with
  | zero => intro y pSrc pY pU pV m _ _; rfl
  | succ k ih =>
      intro y pSrc pY pU pV m hY hU
      simp only [outerLoop]
      have hY2 : ∀ r j, r < k → j < w →
          a ≠ pY + ds + r * ds + j := by
        intro r j hr hj
        have h := hY (r + 1) j (by omega) hj
        have e : pY + (r + 1) * ds + j = pY + ds + r * ds + j := by
          rw [Nat.add_mul, Nat.one_mul]
          set A := r * ds
          omega
        rw [e] at h
        exact h
      have hU2 : ∀ r j, r < k → (y + 1 + r) % 2 = 0 → j < w → j % 2 = 0 →
          a ≠ (if y % 2 = 0 then pU + ds / 2 else pU) +
              eCnt (y + 1) r * (ds / 2) + j / 2 ∧
          a ≠ (if y % 2 = 0 then pV + ds / 2 else pV) +
              eCnt (y + 1) r * (ds / 2) + j / 2 := by
        intro r j hr hpar hj hj2
        have h := hU (r + 1) j (by omega)
          (by have e : y + (r + 1) = y + 1 + r := by omega
              rw [e]; exact hpar) hj hj2
        by_cases hy : y % 2 = 0
        · have e : eCnt y (r + 1) = eCnt (y + 1) r + 1 := by
            unfold eCnt; omega
          rw [e, Nat.add_mul, Nat.one_mul] at h
          rw [if_pos hy, if_pos hy]
          set A := eCnt (y + 1) r * (ds / 2)
          constructor
          · have := h.1; omega
          · have := h.2; omega
        · have e : eCnt y (r + 1) = eCnt (y + 1) r := by
            unfold eCnt; omega
          rw [e] at h
          rw [if_neg hy, if_neg hy]
          exact h
      rw [ih (y + 1) (pSrc + 4 * w + (srcStride - 4 * w)) (pY + ds)
        (if y % 2 = 0 then pU + ds / 2 else pU)
        (if y % 2 = 0 then pV + ds / 2 else pV) _ hY2 hU2]
      apply innerLoop_frame
      · intro j hj1 hj2
        have h := hY 0 j (by omega) (by omega)
        rw [Nat.zero_mul] at h
        have e : pY + 0 + j = pY + j := by omega
        rw [e] at h
        exact h
      · intro j hj1 hj2 hj2e hdec
        have hy : y % 2 = 0 := by
          have := of_decide_eq_true hdec
          exact this
        have h := hU 0 j (by omega) (by simpa using hy) (by omega) hj2e
        have e : eCnt y 0 = 0 := by unfold eCnt; omega
        rw [e, Nat.zero_mul] at h
        constructor
        · have := h.1; omega
        · have := h.2; omega

lemma outerLoop_char (src : Mem) (bgr : Bool)
    (w srcStride ds vs pY0 pU0 pV0 pS0 : Nat)
    (hwds : w ≤ ds) (hds2 : ds % 2 = 0) (hvs2 : vs % 2 = 0)
    (hss : 4 * w ≤ srcStride)
    (hU0 : pU0 = pY0 + ds * vs) (hV0 : pV0 = pU0 + ds / 2 * (vs / 2)) :
    ∀ (n y : Nat) (m : Mem), y + n ≤ vs →
    ∀ yr, y ≤ yr → yr < y + n →
    (∀ x, x < w →
      outerLoop src bgr w srcStride ds n y (pS0 + y * srcStride)
          (pY0 + y * ds) (pU0 + (y + 1) / 2 * (ds / 2))
          (pV0 + (y + 1) / 2 * (ds / 2)) m (pY0 + yr * ds + x) =
        lumaVal (byteAt src (pS0 + yr * srcStride + 4 * x + redOff bgr))
          (byteAt src (pS0 + yr * srcStride + 4 * x + 1))
          (byteAt src (pS0 + yr * srcStride + 4 * x + blueOff bgr)) % 256) ∧
    (yr % 2 = 0 → ∀ x, x < w → x % 2 = 0 →
      outerLoop src bgr w srcStride ds n y (pS0 + y * srcStride)
          (pY0 + y * ds) (pU0 + (y + 1) / 2 * (ds / 2))
          (pV0 + (y + 1) / 2 * (ds / 2)) m
          (pU0 + yr / 2 * (ds / 2) + x / 2) =
        chromaUVal (byteAt src (pS0 + yr * srcStride + 4 * x + redOff bgr))
          (byteAt src (pS0 + yr * srcStride + 4 * x + 1))
          (byteAt src (pS0 + yr * srcStride + 4 * x + blueOff bgr)) % 256 ∧
      outerLoop src bgr w srcStride ds n y (pS0 + y * srcStride)
          (pY0 + y * ds) (pU0 + (y + 1) / 2 * (ds / 2))
          (pV0 + (y + 1) / 2 * (ds / 2)) m
          (pV0 + yr / 2 * (ds / 2) + x / 2) =
        chromaVVal (byteAt src (pS0 + yr * srcStride + 4 * x + redOff bgr))
          (byteAt src (pS0 + yr * srcStride + 4 * x + 1))
          (byteAt src (pS0 + yr * srcStride + 4 * x + blueOff bgr)) % 256) := by
  intro n
  induction n with
  | zero => intro y m hb yr hy1 hy2; exact absurd hy2 (by omega)
  | succ k ih =>
      intro y m hb yr hy1 hy2
      simp only [outerLoop]
      have hS : pS0 + y * srcStride + 4 * w + (srcStride - 4 * w) =
          pS0 + (y + 1) * srcStride := by
        rw [mul_succ_row y srcStride]
        set A := y * srcStride
        omega
      have hYp : pY0 + y * ds + ds = pY0 + (y + 1) * ds := by
        rw [mul_succ_row y ds]
        set A := y * ds
        omega
      have hUp : (if y % 2 = 0 then pU0 + (y + 1) / 2 * (ds / 2) + ds / 2
          else pU0 + (y + 1) / 2 * (ds / 2)) =
          pU0 + (y + 1 + 1) / 2 * (ds / 2) := by
        by_cases hy : y % 2 = 0
        · rw [if_pos hy]
          have e : (y + 1 + 1) / 2 = (y + 1) / 2 + 1 := by omega
          rw [e, Nat.add_mul, Nat.one_mul]
          set A := (y + 1) / 2 * (ds / 2)
          omega
        · rw [if_neg hy]
          have e : (y + 1 + 1) / 2 = (y + 1) / 2 := by omega
          rw [e]
      have hVp : (if y % 2 = 0 then pV0 + (y + 1) / 2 * (ds / 2) + ds / 2
          else pV0 + (y + 1) / 2 * (ds / 2)) =
          pV0 + (y + 1 + 1) / 2 * (ds / 2) := by
        by_cases hy : y % 2 = 0
        · rw [if_pos hy]
          have e : (y + 1 + 1) / 2 = (y + 1) / 2 + 1 := by omega
          rw [e, Nat.add_mul, Nat.one_mul]
          set A := (y + 1) / 2 * (ds / 2)
          omega
        · rw [if_neg hy]
          have e : (y + 1 + 1) / 2 = (y + 1) / 2 := by omega
          rw [e]
      rw [hS, hYp, hUp, hVp]
      by_cases hyr : yr = y
      · subst hyr
        constructor
        · intro x hx
          have hcondY : ∀ r j, r < k → j < w →
              pY0 + yr * ds + x ≠ pY0 + (yr + 1) * ds + r * ds + j := by
            intro r j hr hj
            rw [mul_succ_row yr ds]
            set A := yr * ds
            set C := r * ds
            omega
          have hcondU : ∀ r j, r < k → (yr + 1 + r) % 2 = 0 → j < w →
              j % 2 = 0 →
              pY0 + yr * ds + x ≠
                pU0 + (yr + 1 + 1) / 2 * (ds / 2) +
                  eCnt (yr + 1) r * (ds / 2) + j / 2 ∧
              pY0 + yr * ds + x ≠
                pV0 + (yr + 1 + 1) / 2 * (ds / 2) +
                  eCnt (yr + 1) r * (ds / 2) + j / 2 := by
            intro r j hr hpar hj hj2
            have hbd : yr * ds + x < ds * vs :=
              row_bound2 yr x ds vs (by omega) (by omega)
            rw [hU0, hV0]
            set A := yr * ds
            set B := ds * vs
            set C := (yr + 1 + 1) / 2 * (ds / 2)
            set D := eCnt (yr + 1) r * (ds / 2)
            set E := ds / 2 * (vs / 2)
            omega
          have hfr := outerLoop_frame src bgr w srcStride ds
            (pY0 + yr * ds + x) hwds hds2 k (yr + 1)
            (pS0 + (yr + 1) * srcStride) (pY0 + (yr + 1) * ds)
            (pU0 + (yr + 1 + 1) / 2 * (ds / 2))
            (pV0 + (yr + 1 + 1) / 2 * (ds / 2))
            (innerLoop src bgr (decide (yr % 2 = 0)) (pY0 + yr * ds)
              (pU0 + (yr + 1) / 2 * (ds / 2))
              (pV0 + (yr + 1) / 2 * (ds / 2)) w 0 (pS0 + yr * srcStride) m)
            hcondY hcondU
          rw [hfr]
          have hYU : pY0 + yr * ds + 0 + w ≤
              pU0 + (yr + 1) / 2 * (ds / 2) := by
            have h2 : (yr + 1) * ds ≤ vs * ds :=
              Nat.mul_le_mul_right ds (by omega)
            rw [mul_succ_row yr ds] at h2
            rw [hU0, Nat.mul_comm ds vs]
            set A := yr * ds
            set B := vs * ds
            set C := (yr + 1) / 2 * (ds / 2)
            omega
          have hUV : pU0 + (yr + 1) / 2 * (ds / 2) ≤
              pV0 + (yr + 1) / 2 * (ds / 2) := by
            rw [hV0]
            set C := (yr + 1) / 2 * (ds / 2)
            set E := ds / 2 * (vs / 2)
            omega
          have hlu := innerLoop_luma src bgr (decide (yr % 2 = 0))
            (pY0 + yr * ds) (pU0 + (yr + 1) / 2 * (ds / 2))
            (pV0 + (yr + 1) / 2 * (ds / 2)) w 0 (pS0 + yr * srcStride) m x
            (by omega) (by omega) hYU hUV
          rw [hlu]
          simp
        · intro hyre x hx hx2
          have hdec : decide (yr % 2 = 0) = true := by simp [hyre]
          have hy12 : (yr + 1) / 2 = yr / 2 := by omega
          rw [hdec, hy12]
          have hxc : x / 2 < ds / 2 := by omega
          have hcondYU : ∀ r j, r < k → j < w →
              pU0 + yr / 2 * (ds / 2) + x / 2 ≠
                pY0 + (yr + 1) * ds + r * ds + j := by
            intro r j hr hj
            have hb2 : (yr + 1 + r) * ds + j < ds * vs :=
              row_bound2 (yr + 1 + r) j ds vs (by omega) (by omega)
            have e : (yr + 1 + r) * ds = (yr + 1) * ds + r * ds :=
              Nat.add_mul (yr + 1) r ds
            rw [e] at hb2
            rw [hU0]
            set A := (yr + 1) * ds
            set C := r * ds
            set B := ds * vs
            set F := yr / 2 * (ds / 2)
            omega
          have hcondYV : ∀ r j, r < k → j < w →
              pV0 + yr / 2 * (ds / 2) + x / 2 ≠
                pY0 + (yr + 1) * ds + r * ds + j := by
            intro r j hr hj
            have hb2 : (yr + 1 + r) * ds + j < ds * vs :=
              row_bound2 (yr + 1 + r) j ds vs (by omega) (by omega)
            have e : (yr + 1 + r) * ds = (yr + 1) * ds + r * ds :=
              Nat.add_mul (yr + 1) r ds
            rw [e] at hb2
            rw [hV0, hU0]
            set A := (yr + 1) * ds
            set C := r * ds
            set B := ds * vs
            set F := yr / 2 * (ds / 2)
            set E := ds / 2 * (vs / 2)
            omega
          have hrowptr : ∀ r, (yr + 1 + r) % 2 = 0 → r < k →
              (yr + 1 + 1) / 2 * (ds / 2) + eCnt (yr + 1) r * (ds / 2) =
              (yr + 1 + r) / 2 * (ds / 2) := by
            intro r hpar hr
            rw [← Nat.add_mul]
            have e : (yr + 1 + 1) / 2 + eCnt (yr + 1) r = (yr + 1 + r) / 2 := by
              unfold eCnt
              omega
            rw [e]
          have hcondUU : ∀ r j, r < k → (yr + 1 + r) % 2 = 0 → j < w →
              j % 2 = 0 →
              pU0 + yr / 2 * (ds / 2) + x / 2 ≠
                pU0 + (yr + 1 + 1) / 2 * (ds / 2) +
                  eCnt (yr + 1) r * (ds / 2) + j / 2 ∧
              pU0 + yr / 2 * (ds / 2) + x / 2 ≠
                pV0 + (yr + 1 + 1) / 2 * (ds / 2) +
                  eCnt (yr + 1) r * (ds / 2) + j / 2 := by
            intro r j hr hpar hj hj2
            have e1 : (yr + 1 + 1) / 2 = yr / 2 + 1 := by omega
            constructor
            · rw [e1, Nat.add_mul, Nat.one_mul]
              set F := yr / 2 * (ds / 2)
              set D := eCnt (yr + 1) r * (ds / 2)
              omega
            · have h3 : (yr / 2 + 1) * (ds / 2) ≤ vs / 2 * (ds / 2) :=
                Nat.mul_le_mul_right (ds / 2) (by omega)
              rw [Nat.add_mul, Nat.one_mul] at h3
              rw [hV0]
              have e2 : ds / 2 * (vs / 2) = vs / 2 * (ds / 2) :=
                Nat.mul_comm _ _
              rw [e2]
              set F := yr / 2 * (ds / 2)
              set D := eCnt (yr + 1) r * (ds / 2)
              set G := vs / 2 * (ds / 2)
              set C := (yr + 1 + 1) / 2 * (ds / 2)
              omega
          have hcondUV : ∀ r j, r < k → (yr + 1 + r) % 2 = 0 → j < w →
              j % 2 = 0 →
              pV0 + yr / 2 * (ds / 2) + x / 2 ≠
                pU0 + (yr + 1 + 1) / 2 * (ds / 2) +
                  eCnt (yr + 1) r * (ds / 2) + j / 2 ∧
              pV0 + yr / 2 * (ds / 2) + x / 2 ≠
                pV0 + (yr + 1 + 1) / 2 * (ds / 2) +
                  eCnt (yr + 1) r * (ds / 2) + j / 2 := by
            intro r j hr hpar hj hj2
            constructor
            · have hjc : j / 2 < ds / 2 := by omega
              have hq : (yr + 1 + r) / 2 + 1 ≤ vs / 2 := by omega
              have h3 : ((yr + 1 + r) / 2 + 1) * (ds / 2) ≤
                  vs / 2 * (ds / 2) := Nat.mul_le_mul_right (ds / 2) hq
              rw [Nat.add_mul, Nat.one_mul] at h3
              have hru := hrowptr r hpar hr
              intro hcontra
              rw [hV0] at hcontra
              have e2 : ds / 2 * (vs / 2) = vs / 2 * (ds / 2) :=
                Nat.mul_comm _ _
              rw [e2] at hcontra
              rw [show pU0 + (yr + 1 + 1) / 2 * (ds / 2) +
                    eCnt (yr + 1) r * (ds / 2) + j / 2 =
                  pU0 + ((yr + 1 + 1) / 2 * (ds / 2) +
                    eCnt (yr + 1) r * (ds / 2)) + j / 2 from by omega] at hcontra
              rw [hru] at hcontra
              set Q := (yr + 1 + r) / 2 * (ds / 2)
              set G := vs / 2 * (ds / 2)
              set F := yr / 2 * (ds / 2)
              omega
            · have e1 : (yr + 1 + 1) / 2 = yr / 2 + 1 := by omega
              rw [e1, Nat.add_mul, Nat.one_mul]
              set F := yr / 2 * (ds / 2)
              set D := eCnt (yr + 1) r * (ds / 2)
              omega
          have hfrU := outerLoop_frame src bgr w srcStride ds
            (pU0 + yr / 2 * (ds / 2) + x / 2) hwds hds2 k (yr + 1)
            (pS0 + (yr + 1) * srcStride) (pY0 + (yr + 1) * ds)
            (pU0 + (yr + 1 + 1) / 2 * (ds / 2))
            (pV0 + (yr + 1 + 1) / 2 * (ds / 2))
            (innerLoop src bgr true (pY0 + yr * ds)
              (pU0 + yr / 2 * (ds / 2)) (pV0 + yr / 2 * (ds / 2)) w 0
              (pS0 + yr * srcStride) m)
            hcondYU hcondUU
          have hfrV := outerLoop_frame src bgr w srcStride ds
            (pV0 + yr / 2 * (ds / 2) + x / 2) hwds hds2 k (yr + 1)
            (pS0 + (yr + 1) * srcStride) (pY0 + (yr + 1) * ds)
            (pU0 + (yr + 1 + 1) / 2 * (ds / 2))
            (pV0 + (yr + 1 + 1) / 2 * (ds / 2))
            (innerLoop src bgr true (pY0 + yr * ds)
              (pU0 + yr / 2 * (ds / 2)) (pV0 + yr / 2 * (ds / 2)) w 0
              (pS0 + yr * srcStride) m)
            hcondYV hcondUV
          have hYU2 : pY0 + yr * ds + 0 + w ≤
              pU0 + yr / 2 * (ds / 2) := by
            have h2 : (yr + 1) * ds ≤ vs * ds :=
              Nat.mul_le_mul_right ds (by omega)
            rw [mul_succ_row yr ds] at h2
            rw [hU0, Nat.mul_comm ds vs]
            set A := yr * ds
            set B := vs * ds
            set C := yr / 2 * (ds / 2)
            omega
          have hUVb : pU0 + yr / 2 * (ds / 2) + (0 + w + 1) / 2 ≤
              pV0 + yr / 2 * (ds / 2) := by
            have h1 : (w + 1) / 2 ≤ ds / 2 := by omega
            have h2 : ds / 2 * 1 ≤ ds / 2 * (vs / 2) :=
              Nat.mul_le_mul_left (ds / 2) (by omega)
            rw [Nat.mul_one] at h2
            rw [hV0]
            set C := yr / 2 * (ds / 2)
            set E := ds / 2 * (vs / 2)
            omega
          have hch := innerLoop_chroma src bgr (pY0 + yr * ds)
            (pU0 + yr / 2 * (ds / 2)) (pV0 + yr / 2 * (ds / 2)) w 0
            (pS0 + yr * srcStride) m x (by omega) (by omega) hx2 hYU2 hUVb
          refine ⟨?_, ?_⟩
          · rw [hfrU, hch.1]
            simp
          · rw [hfrV, hch.2]
            simp
      · exact ih (y + 1)
          (innerLoop src bgr (decide (y % 2 = 0)) (pY0 + y * ds)
            (pU0 + (y + 1) / 2 * (ds / 2)) (pV0 + (y + 1) / 2 * (ds / 2)) w 0
            (pS0 + y * srcStride) m)
          (by omega) yr (by omega) (by omega)

lemma byteAt_lt (m : Mem) (a : Nat) : byteAt m a < 256 :=
  Nat.mod_lt _ (by omega)

lemma lumaVal_lt (r g b : Nat) (hr : r < 256) (hg : g < 256) (hb : b < 256) :
    lumaVal r g b < 256 := by
  unfold lumaVal
  omega

/-- Claim C5: for even width and height (and a destination layout large
enough for the three planes), `ConvertRGB32ToPlanar` writes
`Y = ((R*65 + G*129 + B*25 + 128) >> 8) + 16` at every pixel of the luma
plane, and exactly at the pixels with both coordinates even it writes
`U = ((-R*38 - G*74 + B*112 + 128) >> 8) + 128` and
`V = ((R*112 - G*94 - B*18 + 128) >> 8) + 128` into the half-resolution
chroma planes (integer/wraparound arithmetic, byte-truncating stores, no
clamping); `R` and `B` offsets are swapped when `bgr` is set. -/
theorem c5_rgb32_to_planar (src dst : Mem) (bgr : Bool)
    (pSrc dstY w h dstStride dstVStride srcStride : Nat)
    (hw2 : w % 2 = 0) (hh2 : h % 2 = 0)
    (hwds : w ≤ dstStride) (hds2 : dstStride % 2 = 0)
    (hhvs : h ≤ dstVStride) (hvs2 : dstVStride % 2 = 0)
    (hss : 4 * w ≤ srcStride) :
    (∀ x y, x < w → y < h →
      ConvertRGB32ToPlanar dst dstY dstStride dstVStride src pSrc w h
          srcStride bgr (dstY + y * dstStride + x) =
        lumaVal (byteAt src (pSrc + y * srcStride + 4 * x + redOff bgr))
          (byteAt src (pSrc + y * srcStride + 4 * x + 1))
          (byteAt src (pSrc + y * srcStride + 4 * x + blueOff bgr))) ∧
    (∀ cx cy, cx < w / 2 → cy < h / 2 →
      ConvertRGB32ToPlanar dst dstY dstStride dstVStride src pSrc w h
          srcStride bgr
          (dstY + dstStride * dstVStride + cy * (dstStride / 2) + cx) =
        chromaUVal
          (byteAt src (pSrc + 2 * cy * srcStride + 4 * (2 * cx) + redOff bgr))
          (byteAt src (pSrc + 2 * cy * srcStride + 4 * (2 * cx) + 1))
          (byteAt src (pSrc + 2 * cy * srcStride + 4 * (2 * cx) + blueOff bgr))
          % 256 ∧
      ConvertRGB32ToPlanar dst dstY dstStride dstVStride src pSrc w h
          srcStride bgr
          (dstY + dstStride * dstVStride + dstStride / 2 * (dstVStride / 2) +
            cy * (dstStride / 2) + cx) =
        chromaVVal
          (byteAt src (pSrc + 2 * cy * srcStride + 4 * (2 * cx) + redOff bgr))
          (byteAt src (pSrc + 2 * cy * srcStride + 4 * (2 * cx) + 1))
          (byteAt src (pSrc + 2 * cy * srcStride + 4 * (2 * cx) + blueOff bgr))
          % 256) := by
  have H := outerLoop_char src bgr w srcStride dstStride dstVStride dstY
    (dstY + dstStride * dstVStride)
    (dstY + dstStride * dstVStride + dstStride / 2 * (dstVStride / 2)) pSrc
    hwds hds2 hvs2 hss rfl rfl h 0 dst (by omega)
  simp only [Nat.zero_mul, Nat.add_zero, Nat.zero_add,
    show (0 + 1) / 2 = 0 from rfl] at H
  constructor
  · intro x y hx hy
    have hl := (H y (by omega) (by omega)).1 x hx
    have hlt : lumaVal (byteAt src (pSrc + y * srcStride + 4 * x + redOff bgr))
        (byteAt src (pSrc + y * srcStride + 4 * x + 1))
        (byteAt src (pSrc + y * srcStride + 4 * x + blueOff bgr)) < 256 :=
      lumaVal_lt _ _ _ (byteAt_lt _ _) (byteAt_lt _ _) (byteAt_lt _ _)
    rw [Nat.mod_eq_of_lt hlt] at hl
    exact hl
  · intro cx cy hcx hcy
    have hc := (H (2 * cy) (by omega) (by omega)).2 (by omega) (2 * cx)
      (by omega) (by omega)
    have e1 : 2 * cy / 2 = cy := by omega
    have e2 : 2 * cx / 2 = cx := by omega
    rw [e1, e2] at hc
    exact hc

/-- Witness for C5: a concrete 2x2 frame with identity source memory. -/
theorem c5_rgb32_to_planar_witness :
    ((2 : Nat) % 2 = 0 ∧ (2 : Nat) ≤ 2 ∧ 4 * 2 ≤ 8) ∧
    (∀ x y, x < 2 → y < 2 →
      ConvertRGB32ToPlanar (fun _ => 0) 0 2 2 (fun a => a) 0 2 2 8 false
          (0 + y * 2 + x) =
        lumaVal (byteAt (fun a => a) (0 + y * 8 + 4 * x + redOff false))
          (byteAt (fun a => a) (0 + y * 8 + 4 * x + 1))
          (byteAt (fun a => a) (0 + y * 8 + 4 * x + blueOff false))) ∧
    (∀ cx cy, cx < 2 / 2 → cy < 2 / 2 →
      ConvertRGB32ToPlanar (fun _ => 0) 0 2 2 (fun a => a) 0 2 2 8 false
          (0 + 2 * 2 + cy * (2 / 2) + cx) =
        chromaUVal
          (byteAt (fun a => a) (0 + 2 * cy * 8 + 4 * (2 * cx) + redOff false))
          (byteAt (fun a => a) (0 + 2 * cy * 8 + 4 * (2 * cx) + 1))
          (byteAt (fun a => a) (0 + 2 * cy * 8 + 4 * (2 * cx) + blueOff false))
          % 256 ∧
      ConvertRGB32ToPlanar (fun _ => 0) 0 2 2 (fun a => a) 0 2 2 8 false
          (0 + 2 * 2 + 2 / 2 * (2 / 2) + cy * (2 / 2) + cx) =
        chromaVVal
          (byteAt (fun a => a) (0 + 2 * cy * 8 + 4 * (2 * cx) + redOff false))
          (byteAt (fun a => a) (0 + 2 * cy * 8 + 4 * (2 * cx) + 1))
          (byteAt (fun a => a) (0 + 2 * cy * 8 + 4 * (2 * cx) + blueOff false))
          % 256) :=
  ⟨⟨rfl, by decide, by decide⟩,
   (c5_rgb32_to_planar (fun a => a) (fun _ => 0) false 0 0 2 2 2 2 8
     rfl rfl (by decide) rfl (by decide) rfl (by decide)).1,
   (c5_rgb32_to_planar (fun a => a) (fun _ => 0) false 0 0 2 2 2 2 8
     rfl rfl (by decide) rfl (by decide) rfl (by decide)).2⟩

/-! ### `extractGraphicBuffer` (lines 756-950) and
`ConvertFlexYUVToPlanar` (lines 622-661)

The environment record carries the outcomes of the external calls the
function makes (metadata header fields, fence wait, gralloc lock, EGL
readback); the control flow and the destination writes are translated from
the source. -/

/-- `kMetadataBufferTypeGrallocSource` (MetadataBufferType.h). -/
def kMetadataBufferTypeGrallocSource : Nat := 1

/-- `kMetadataBufferTypeANWBuffer` (MetadataBufferType.h). -/
def kMetadataBufferTypeANWBuffer : Nat := 2

/-- `HAL_PIXEL_FORMAT_RGBA_8888`. -/
def HAL_PIXEL_FORMAT_RGBA_8888 : Nat := 1

/-- `HAL_PIXEL_FORMAT_RGBX_8888`. -/
def HAL_PIXEL_FORMAT_RGBX_8888 : Nat := 2

/-- `HAL_PIXEL_FORMAT_BGRA_8888`. -/
def HAL_PIXEL_FORMAT_BGRA_8888 : Nat := 5

/-- `HAL_PIXEL_FORMAT_YCrCb_420_SP` = 0x11. -/
def HAL_PIXEL_FORMAT_YCrCb_420_SP : Nat := 17

/-- `HAL_PIXEL_FORMAT_YCbCr_420_888` = 0x23. -/
def HAL_PIXEL_FORMAT_YCbCr_420_888 : Nat := 35

/-- `HAL_PIXEL_FORMAT_YV12` = 0x32315659. -/
def HAL_PIXEL_FORMAT_YV12 : Nat := 842094169

/-- `struct android_ycbcr`: plane addresses into the source buffer plus the
stride/step fields the conversion reads. -/
structure YCbCrLayout where
  y : Nat
  cb : Nat
  cr : Nat
  ystride : Nat
  cstride : Nat
  chromaStep : Nat
  deriving DecidableEq, Repr

/-- `memcpy(dst, src, n)` on byte memories. -/
def copyN (srcM : Mem) : Nat → Nat → Nat → Mem → Mem
  | 0, _, _, m => m
  | n + 1, d, s, m => copyN srcM n (d + 1) (s + 1) (wr m d (byteAt srcM s))

/-- Luma rows of `ConvertFlexYUVToPlanar` (lines 631-635). -/
def flexLumaRows (srcM : Mem) (width ystride ds : Nat) :
    Nat → Nat → Nat → Mem → Mem
  | 0, _, _, m => m
  | n + 1, d, s, m =>
      flexLumaRows srcM width ystride ds n (d + ds) (s + ystride)
        (copyN srcM width d s m)

/-- Planar fast-path chroma rows (lines 638-645). -/
def flexChromaRowsPlanar (srcM : Mem) (halfW cstride halfDs : Nat) :
    Nat → Nat → Nat → Nat → Nat → Mem → Mem
  | 0, _, _, _, _, m => m
  | n + 1, dU, dV, sU, sV, m =>
      flexChromaRowsPlanar srcM halfW cstride halfDs n (dU + halfDs)
        (dV + halfDs) (sU + cstride) (sV + cstride)
        (copyN srcM halfW dV sV (copyN srcM halfW dU sU m))

/-- One arbitrary-layout chroma row (lines 649-654). -/
def flexChromaPixels (srcM : Mem) (step : Nat) :
    Nat → Nat → Nat → Nat → Nat → Mem → Mem
  | 0, _, _, _, _, m => m
  | n + 1, dU, dV, sU, sV, m =>
      flexChromaPixels srcM step n (dU + 1) (dV + 1) (sU + step) (sV + step)
        (wr (wr m dU (byteAt srcM sU)) dV (byteAt srcM sV))

/-- Arbitrary-layout chroma rows with the post-row pointer adjustments of
lines 655-658 (`size_t` arithmetic; the `Nat` subtraction matches it for the
layouts where `cstride ≥ (width>>1)*chroma_step` and `dstStride ≥ width`). -/
def flexChromaRowsArb (srcM : Mem) (halfW step cstride halfDs : Nat) :
    Nat → Nat → Nat → Nat → Nat → Mem → Mem
  | 0, _, _, _, _, m => m
  | n + 1, dU, dV, sU, sV, m =>
      flexChromaRowsArb srcM halfW step cstride halfDs n
        (dU + halfW + (halfDs - halfW)) (dV + halfW + (halfDs - halfW))
        (sU + halfW * step + (cstride - halfW * step))
        (sV + halfW * step + (cstride - halfW * step))
        (flexChromaPixels srcM step halfW dU dV sU sV m)

/-- `SoftVideoEncoderOMXComponent::ConvertFlexYUVToPlanar` (lines 622-661):
`dstU = dst + dstVStride * dstStride;`
`dstV = dstU + (dstVStride >> 1) * (dstStride >> 1);` then the luma copy and
either the planar fast path (`cstride == ystride >> 1 && chroma_step == 1`)
or the pixel walk. -/
def ConvertFlexYUVToPlanar (m : Mem) (dst dstStride dstVStride : Nat)
    (srcM : Mem) (yc : YCbCrLayout) (width height : Nat) : Mem :=
  let m1 := flexLumaRows srcM width yc.ystride dstStride height dst yc.y m
  let dstU := dst + dstVStride * dstStride
  let dstV := dstU + dstVStride / 2 * (dstStride / 2)
  if yc.cstride = yc.ystride / 2 ∧ yc.chromaStep = 1 then
    flexChromaRowsPlanar srcM (width / 2) yc.cstride (dstStride / 2)
      (height / 2) dstU dstV yc.cb yc.cr m1
  else
    flexChromaRowsArb srcM (width / 2) yc.chromaStep yc.cstride
      (dstStride / 2) (height / 2) dstU dstV yc.cb yc.cr m1

/-- Outcomes of the external calls `extractGraphicBuffer` makes: the parsed
metadata header, the fence wait (`fenceOk` = the wait returned `OK` within
`kFenceTimeoutMs`), the gralloc lock, and the PowerVR/EGL readback. -/
structure ExtractEnv where
  bufferType : Nat
  format : Nat
  anwStride : Nat
  anwHeight : Nat
  hasFence : Bool
  fenceOk : Bool
  lockOk : Bool
  lockedYCbCr : YCbCrLayout
  bits : Nat
  gfx : Mem
  isPowervr : Bool
  eglReady : Bool
  shm : Mem

/-- The format switch of `extractGraphicBuffer` (lines 850-943), after the
lock succeeded.  Destination addresses are offsets from the `dst` argument
(base 0); `dstStride = width`, `dstVStride = height` (lines 760-761).  The
`default:` case sets `dst = NULL` without writing. -/
def extractSwitch (env : ExtractEnv) (dst : Mem)
    (w h format srcStride srcVStride : Nat) : Option Unit × Mem :=
  if format = HAL_PIXEL_FORMAT_YV12 then
    (some (), ConvertFlexYUVToPlanar dst 0 w h env.gfx
      { y := env.bits,
        cr := env.bits + srcStride * srcVStride,
        cb := env.bits + srcStride * srcVStride +
          srcStride / 2 * (srcVStride / 2),
        chromaStep := 1, cstride := srcStride / 2, ystride := srcStride }
      w h)
  else if format = HAL_PIXEL_FORMAT_YCrCb_420_SP then
    (some (), ConvertFlexYUVToPlanar dst 0 w h env.gfx
      { y := env.bits,
        cr := env.bits + srcStride * srcVStride,
        cb := env.bits + srcStride * srcVStride + 1,
        chromaStep := 2, cstride := srcStride, ystride := srcStride }
      w h)
  else if format = HAL_PIXEL_FORMAT_YCbCr_420_888 then
    if env.isPowervr = true then
      if env.eglReady = true then
        (some (), ConvertRGB32ToPlanar dst 0 w h env.shm 0 w h srcStride
          (decide (format = HAL_PIXEL_FORMAT_BGRA_8888)))
      else (none, dst)
    else
      (some (), ConvertFlexYUVToPlanar dst 0 w h env.gfx env.lockedYCbCr w h)
  else if format = HAL_PIXEL_FORMAT_RGBX_8888 ∨
      format = HAL_PIXEL_FORMAT_RGBA_8888 ∨
      format = HAL_PIXEL_FORMAT_BGRA_8888 then
    if env.isPowervr = true then
      if env.eglReady = true then
        (some (), ConvertRGB32ToPlanar dst 0 w h env.shm 0 w h srcStride
          (decide (format = HAL_PIXEL_FORMAT_BGRA_8888)))
      else (none, dst)
    else
      (some (), ConvertRGB32ToPlanar dst 0 w h env.gfx env.bits w h srcStride
        (decide (format = HAL_PIXEL_FORMAT_BGRA_8888)))
  else (none, dst)

/-- The destination-size and lock checks of `extractGraphicBuffer`
(lines 820-847) followed by the switch. -/
def extractTail (env : ExtractEnv) (dst : Mem)
    (dstSize w h format srcStride srcVStride : Nat) : Option Unit × Mem :=
  if dstSize < w * h + w / 2 + w / 2 * (h / 2 + h / 2 - 1) then (none, dst)
  else if env.lockOk = false then (none, dst)
  else extractSwitch env dst w h format srcStride srcVStride

/-- `SoftVideoEncoderOMXComponent::extractGraphicBuffer` (lines 756-950):
metadata-type dispatch, metadata-size checks, the fence wait (ANW path only,
before anything is written), then `extractTail`.  The returned flag is the
`const uint8_t *` result (`none` = NULL); the returned memory is the
destination buffer after the call. -/
def extractGraphicBuffer (env : ExtractEnv) (dst : Mem)
    (dstSize srcSize w h : Nat) : Option Unit × Mem :=
  if env.bufferType ≠ kMetadataBufferTypeANWBuffer ∧
      env.bufferType ≠ kMetadataBufferTypeGrallocSource then (none, dst)
  else if env.bufferType = kMetadataBufferTypeANWBuffer then
    if srcSize < sizeofVideoNativeMetadata then (none, dst)
    else if env.hasFence = true ∧ env.fenceOk = false then (none, dst)
    else
      extractTail env dst dstSize w h env.format
        (if env.isPowervr = true ∨
            (env.format ≠ HAL_PIXEL_FORMAT_YV12 ∧
             env.format ≠ HAL_PIXEL_FORMAT_YCrCb_420_SP ∧
             env.format ≠ HAL_PIXEL_FORMAT_YCbCr_420_888) then
          env.anwStride * 4
         else env.anwStride)
        env.anwHeight
  else
    if srcSize < sizeofVideoGrallocMetadata then (none, dst)
    else extractTail env dst dstSize w h HAL_PIXEL_FORMAT_RGBA_8888 (w * 4) h

/-- Claim C6: when the source metadata carries a fence
(`nFenceFd >= 0`) and the wait does not return `OK` within the fixed
timeout, `extractGraphicBuffer` returns NULL and the destination memory is
returned exactly as it was passed in — the fence wait (lines 794-802)
precedes every destination write. -/
theorem c6_fence_timeout_no_write (env : ExtractEnv) (dst : Mem)
    (dstSize srcSize w h : Nat)
    (hbt : env.bufferType = kMetadataBufferTypeANWBuffer)
    (hsz : sizeofVideoNativeMetadata ≤ srcSize)
    (hfence : env.hasFence = true) (hto : env.fenceOk = false) :
    extractGraphicBuffer env dst dstSize srcSize w h = (none, dst) := by
  unfold extractGraphicBuffer
  rw [if_neg (by simp [hbt]), if_pos hbt,
    if_neg (by omega), if_pos (by exact ⟨hfence, hto⟩)]

/-- Witness for C6: a concrete ANW-buffer extraction whose fence never
signals. -/
theorem c6_fence_timeout_no_write_witness :
    (({ bufferType := 2, format := 1, anwStride := 4, anwHeight := 4,
        hasFence := true, fenceOk := false, lockOk := true,
        lockedYCbCr := ⟨0, 0, 0, 0, 0, 0⟩, bits := 0, gfx := fun _ => 0,
        isPowervr := false, eglReady := false,
        shm := fun _ => 0 } : ExtractEnv).bufferType =
      kMetadataBufferTypeANWBuffer ∧
     sizeofVideoNativeMetadata ≤ 24) ∧
    extractGraphicBuffer
      { bufferType := 2, format := 1, anwStride := 4, anwHeight := 4,
        hasFence := true, fenceOk := false, lockOk := true,
        lockedYCbCr := ⟨0, 0, 0, 0, 0, 0⟩, bits := 0, gfx := fun _ => 0,
        isPowervr := false, eglReady := false, shm := fun _ => 0 }
      (fun _ => 7) 100 24 4 4 = (none, fun _ => 7) :=
  ⟨⟨rfl, by decide⟩,
   c6_fence_timeout_no_write _ _ 100 24 4 4 rfl (by decide) rfl rfl⟩

end SoftVideoEncoder
